import Mathlib

/-!
Verification of the camera zoom/pan transform engine of `src/lib/transform.ts`
(screenarc). The engine is shallowly embedded: JavaScript numbers are modelled
as exact rationals (`ℚ`), the module-level mutable carryover state
(`previousPanX`, `previousPanY`, `lastPanUpdateTime`) is threaded explicitly
as an `EngineState` value, and the engine returns the transform together with
the updated state. Externals that are not part of the sources (the easing
table `EASING_MAP` and the `DEFAULTS.CAMERA.MOVEMENT` constants) are modelled
from the spec as parameters: an opaque-by-parameter easing family
`String → ℚ → ℚ` (lookup with fallback already applied) and rational
parameters for the smoothing window, smoothing factor and dead zone.

Array accesses `metadata[i]` are modelled by `getAt`, which returns a default
item out of bounds; the index-safety theorem shows the engine only uses
in-bounds indices. The single square root of the source
(`movementDistance > deadZone`) is modelled by comparing squared distances,
which is equivalent for a nonnegative dead zone.
-/

namespace ScreenArc

/-- The follow mode of a zoom region, the TS union type `"auto" | "fixed"`. -/
inductive Mode where
  | auto
  | fixed
deriving DecidableEq

@[simp] lemma Mode.auto_ne_fixed : Mode.auto ≠ Mode.fixed := fun h => Mode.noConfusion h

@[simp] lemma Mode.fixed_ne_auto : Mode.fixed ≠ Mode.auto := fun h => Mode.noConfusion h

/-- One pointer-movement sample (`MetaDataItem`); only the fields the engine
reads are modelled. -/
structure MetaDataItem where
  timestamp : ℚ
  x : ℚ
  y : ℚ
deriving DecidableEq, Inhabited

/-- A zoom region (`ZoomRegion`); only the fields the engine reads. -/
structure ZoomRegion where
  startTime : ℚ
  duration : ℚ
  zoomLevel : ℚ
  targetX : ℚ
  targetY : ℚ
  mode : Mode
  easing : String
  transitionDuration : ℚ
deriving DecidableEq

/-- A width/height pair (recording geometry, frame content dimensions). -/
structure Dimensions where
  width : ℚ
  height : ℚ
deriving DecidableEq

/-- The module-level mutable state of `transform.ts`, made explicit. -/
structure EngineState where
  previousPanX : ℚ
  previousPanY : ℚ
  lastPanUpdateTime : ℚ
deriving DecidableEq

/-- The result of `calculateZoomTransform`. The source formats
`transformOrigin` as a percentage string; it is modelled as the percentage
pair itself. -/
structure TransformResult where
  scale : ℚ
  translateX : ℚ
  translateY : ℚ
  transformOrigin : ℚ × ℚ
deriving DecidableEq

/-- `lerp`: linear interpolation, `start * (1 - t) + end * t`. -/
def lerp (start fin t : ℚ) : ℚ :=
  start * (1 - t) + fin * t

/-- `PAN_SMOOTHING_FACTOR = 0.1`. -/
def PAN_SMOOTHING_FACTOR : ℚ := 1 / 10

/-- Array access `metadata[i]`; out-of-bounds access yields the default item
(the index-safety theorem shows the engine stays in bounds). -/
def getAt (l : List MetaDataItem) (i : Nat) : MetaDataItem :=
  match l, i with
  | [], _ => default
  | a :: _, 0 => a
  | _ :: as, n + 1 => getAt as n

/-- The binary-search loop of `findLastMetadataIndex`. The loop is embedded
with a fuel argument (structural recursion); `findLastMetadataIndex` supplies
more fuel than the loop can ever consume, since the interval shrinks at every
iteration. -/
def findGo (metadata : List MetaDataItem) (currentTime : ℚ) :
    Nat → Int → Int → Int → Int
  | 0, _, _, result => result
  | fuel + 1, left, right, result =>
    if left ≤ right then
      if (getAt metadata ((left + right) / 2).toNat).timestamp ≤ currentTime then
        findGo metadata currentTime fuel ((left + right) / 2 + 1) right ((left + right) / 2)
      else
        findGo metadata currentTime fuel left ((left + right) / 2 - 1) result
    else result

/-- `findLastMetadataIndex`: index of the last sample with timestamp ≤
`currentTime`, or `-1`; binary search. -/
def findLastMetadataIndex (metadata : List MetaDataItem) (currentTime : ℚ) : Int :=
  if metadata.length = 0 then -1
  else findGo metadata currentTime (metadata.length + 1) 0 ((metadata.length : Int) - 1) (-1)

/-- One iteration of the EMA loop of `getSmoothedMousePosition`. The source
compares `sqrt(dx² + dy²) > deadZone`; squared distances are compared instead,
equivalent for `deadZone ≥ 0`. -/
def emaStep (deadZone smoothingFactor : ℚ) (smoothed : ℚ × ℚ)
    (current : MetaDataItem) : ℚ × ℚ :=
  let deltaX := current.x - smoothed.1
  let deltaY := current.y - smoothed.2
  let effectiveSmoothingFactor :=
    if deadZone * deadZone < deltaX * deltaX + deltaY * deltaY then smoothingFactor
    else smoothingFactor * (3 / 10)
  (lerp smoothed.1 current.x effectiveSmoothingFactor,
   lerp smoothed.2 current.y effectiveSmoothingFactor)

/-- The `for (let i = startIndex + 1; i <= endIndex; i++)` loop of
`getSmoothedMousePosition`: `k` remaining iterations starting at index `i`. -/
def smoothIter (metadata : List MetaDataItem) (deadZone smoothingFactor : ℚ) :
    Nat → Nat → (ℚ × ℚ) → ℚ × ℚ
  | _, 0, acc => acc
  | i, k + 1, acc =>
    smoothIter metadata deadZone smoothingFactor (i + 1) k
      (emaStep deadZone smoothingFactor acc (getAt metadata i))

/-- `getSmoothedMousePosition`: EMA-smoothed cursor position at `targetTime`,
or `none` when no sample is at or before it. `smoothingWindow`,
`smoothingFactor` and `deadZone` model the external
`DEFAULTS.CAMERA.MOVEMENT` constants (modelled from the spec: a fixed
nonnegative lookback window and tuned smoothing constants). -/
def getSmoothedMousePosition (smoothingWindow smoothingFactor deadZone : ℚ)
    (metadata : List MetaDataItem) (targetTime : ℚ) : Option (ℚ × ℚ) :=
  let endIndex := findLastMetadataIndex metadata targetTime
  if endIndex < 0 then none
  else
    let startTime := max 0 (targetTime - smoothingWindow)
    let startIndex0 := findLastMetadataIndex metadata startTime
    let startIndex := if startIndex0 < 0 then 0 else startIndex0
    if (metadata.length : Int) ≤ startIndex then none
    else
      let s := startIndex.toNat
      let e := endIndex.toNat
      let first := getAt metadata s
      let smoothed :=
        smoothIter metadata deadZone smoothingFactor (s + 1) (e - s) (first.x, first.y)
      let lastEvent := getAt metadata e
      if e + 1 < metadata.length then
        let nextEvent := getAt metadata (e + 1)
        let timeDiff := nextEvent.timestamp - lastEvent.timestamp
        if 0 < timeDiff then
          let progress := (targetTime - lastEvent.timestamp) / timeDiff
          let finalX := lerp smoothed.1 nextEvent.x smoothingFactor
          let finalY := lerp smoothed.2 nextEvent.y smoothingFactor
          some (lerp smoothed.1 finalX progress, lerp smoothed.2 finalY progress)
        else some smoothed
      else some smoothed

/-- `calculateBoundedPan`: clamped cursor-centering translation. -/
def calculateBoundedPan (mousePos : Option (ℚ × ℚ)) (origin : ℚ × ℚ)
    (zoomLevel : ℚ) (recordingGeometry frameContentDimensions : Dimensions) : ℚ × ℚ :=
  match mousePos with
  | none => (0, 0)
  | some mp =>
    let nsmx := mp.1 / recordingGeometry.width
    let nsmy := mp.2 / recordingGeometry.height
    let targetFinalPanX :=
      (1 / 2 - ((nsmx - origin.1) * zoomLevel + origin.1)) * frameContentDimensions.width
    let targetFinalPanY :=
      (1 / 2 - ((nsmy - origin.2) * zoomLevel + origin.2)) * frameContentDimensions.height
    let targetTranslateX := targetFinalPanX / zoomLevel
    let targetTranslateY := targetFinalPanY / zoomLevel
    let maxTx := origin.1 * frameContentDimensions.width * (zoomLevel - 1) / zoomLevel
    let minTx := -((1 - origin.1) * frameContentDimensions.width * (zoomLevel - 1)) / zoomLevel
    let maxTy := origin.2 * frameContentDimensions.height * (zoomLevel - 1) / zoomLevel
    let minTy := -((1 - origin.2) * frameContentDimensions.height * (zoomLevel - 1)) / zoomLevel
    (max minTx (min maxTx targetTranslateX), max minTy (min maxTy targetTranslateY))

/-- `getTransformOrigin`: normalized target point shifted to `[0,1]`. -/
def getTransformOrigin (targetX targetY : ℚ) : ℚ × ℚ :=
  (targetX + 1 / 2, targetY + 1 / 2)

/-- The cursor-influence factor of the zoom-out phase
(`t <= 0.05 ? 1 - (t / 0.05) : 0`, line 265 of the source, where `t` is the
value the source feeds in). -/
def cursorInfluence (t : ℚ) : ℚ :=
  if t ≤ 1 / 20 then 1 - t / (1 / 20) else 0

/-- The frame-rate-normalized smoothing alpha of the hold and zoom-out phases
(`timeDelta > 0 ? (timeDelta / 0.016) * PAN_SMOOTHING_FACTOR : 0`). -/
def frameAlpha (currentTime lastPanUpdateTime : ℚ) : ℚ :=
  let timeDelta := currentTime - lastPanUpdateTime
  if 0 < timeDelta then timeDelta / (2 / 125) * PAN_SMOOTHING_FACTOR else 0

/-- The three pan targets computed at lines 190–207 of the source. -/
structure PanTargets where
  initialPan : ℚ × ℚ
  livePan : ℚ × ℚ
  finalPan : ℚ × ℚ
deriving DecidableEq

/-- Lines 190–207: the zoom-in-end, live and zoom-out-start pan targets,
computed only in auto mode with samples and positive recording width. -/
def computePans (smoothingWindow smoothingFactor deadZone currentTime : ℚ)
    (region : ZoomRegion) (metadata : List MetaDataItem)
    (recordingGeometry frameContentDimensions : Dimensions) : PanTargets :=
  if region.mode = Mode.auto ∧ 0 < metadata.length ∧ 0 < recordingGeometry.width then
    let fixedOrigin := getTransformOrigin region.targetX region.targetY
    let zoomInEndTime := region.startTime + region.transitionDuration
    let zoomOutStartTime := region.startTime + region.duration - region.transitionDuration
    { initialPan :=
        calculateBoundedPan
          (getSmoothedMousePosition smoothingWindow smoothingFactor deadZone metadata zoomInEndTime)
          fixedOrigin region.zoomLevel recordingGeometry frameContentDimensions,
      livePan :=
        calculateBoundedPan
          (getSmoothedMousePosition smoothingWindow smoothingFactor deadZone metadata currentTime)
          fixedOrigin region.zoomLevel recordingGeometry frameContentDimensions,
      finalPan :=
        calculateBoundedPan
          (getSmoothedMousePosition smoothingWindow smoothingFactor deadZone metadata zoomOutStartTime)
          fixedOrigin region.zoomLevel recordingGeometry frameContentDimensions }
  else { initialPan := (0, 0), livePan := (0, 0), finalPan := (0, 0) }

/-- The region-selection predicate of line 155:
`currentTime >= r.startTime && currentTime < r.startTime + r.duration`. -/
def isActiveAt (currentTime : ℚ) (r : ZoomRegion) : Bool :=
  decide (r.startTime ≤ currentTime) && decide (currentTime < r.startTime + r.duration)

/-- The identity transform returned when no region is active. -/
def defaultTransform : TransformResult :=
  { scale := 1, translateX := 0, translateY := 0, transformOrigin := (50, 50) }

/-- Lines 178–296: the transform computed for the active region, from the
state `st1` left by the discontinuity-reset step. -/
def activeTransform (easingMap : String → ℚ → ℚ)
    (smoothingWindow smoothingFactor deadZone currentTime : ℚ) (region : ZoomRegion)
    (metadata : List MetaDataItem) (recordingGeometry frameContentDimensions : Dimensions)
    (st1 : EngineState) : TransformResult × EngineState :=
  let zoomOutStartTime := region.startTime + region.duration - region.transitionDuration
  let zoomInEndTime := region.startTime + region.transitionDuration
  let fixedOrigin := getTransformOrigin region.targetX region.targetY
  let transformOrigin := (fixedOrigin.1 * 100, fixedOrigin.2 * 100)
  let pans := computePans smoothingWindow smoothingFactor deadZone currentTime region
    metadata recordingGeometry frameContentDimensions
  if region.startTime ≤ currentTime ∧ currentTime < zoomInEndTime then
    let t := easingMap region.easing ((currentTime - region.startTime) / region.transitionDuration)
    let currentTranslateX := lerp 0 pans.initialPan.1 t
    let currentTranslateY := lerp 0 pans.initialPan.2 t
    ({ scale := lerp 1 region.zoomLevel t, translateX := currentTranslateX,
       translateY := currentTranslateY, transformOrigin := transformOrigin },
     { previousPanX := currentTranslateX, previousPanY := currentTranslateY,
       lastPanUpdateTime := currentTime })
  else if zoomInEndTime ≤ currentTime ∧ currentTime < zoomOutStartTime then
    let safeAlpha := max 0 (min 1 (frameAlpha currentTime st1.lastPanUpdateTime))
    let currentTranslateX := lerp st1.previousPanX pans.livePan.1 safeAlpha
    let currentTranslateY := lerp st1.previousPanY pans.livePan.2 safeAlpha
    ({ scale := region.zoomLevel, translateX := currentTranslateX,
       translateY := currentTranslateY, transformOrigin := transformOrigin },
     { previousPanX := currentTranslateX, previousPanY := currentTranslateY,
       lastPanUpdateTime := currentTime })
  else if zoomOutStartTime ≤ currentTime ∧ currentTime ≤ region.startTime + region.duration then
    let t := easingMap region.easing ((currentTime - zoomOutStartTime) / region.transitionDuration)
    let currentScale := lerp region.zoomLevel 1 t
    let target :=
      if region.mode = Mode.auto ∧ 0 < metadata.length ∧ 0 < recordingGeometry.width then
        let dynamicPan :=
          calculateBoundedPan
            (getSmoothedMousePosition smoothingWindow smoothingFactor deadZone metadata currentTime)
            fixedOrigin currentScale recordingGeometry frameContentDimensions
        (dynamicPan.1 * cursorInfluence t, dynamicPan.2 * cursorInfluence t)
      else
        (lerp pans.finalPan.1 0 t, lerp pans.finalPan.2 0 t)
    let fluidAlpha :=
      lerp (max 0 (min 1 (frameAlpha currentTime st1.lastPanUpdateTime))) 1 (t ^ 4)
    let currentTranslateX := lerp st1.previousPanX target.1 fluidAlpha
    let currentTranslateY := lerp st1.previousPanY target.2 fluidAlpha
    ({ scale := currentScale, translateX := currentTranslateX,
       translateY := currentTranslateY, transformOrigin := transformOrigin },
     { previousPanX := currentTranslateX, previousPanY := currentTranslateY,
       lastPanUpdateTime := currentTime })
  else
    ({ scale := 1, translateX := 0, translateY := 0, transformOrigin := transformOrigin },
     { previousPanX := st1.previousPanX, previousPanY := st1.previousPanY,
       lastPanUpdateTime := currentTime })

/-- Lines 166–174 for an active region: a query time jumping by more than
0.5s from the last recorded time resets the carried pan to zero. -/
def resetState (currentTime : ℚ) (st : EngineState) : EngineState :=
  if 1 / 2 < |currentTime - st.lastPanUpdateTime| then
    { previousPanX := 0, previousPanY := 0, lastPanUpdateTime := st.lastPanUpdateTime }
  else st

/-- `calculateZoomTransform`, with the module state threaded explicitly. When
no region is active the source returns the default transform before touching
the state; when a region is active the discontinuity reset runs first
(lines 166–176). -/
def calculateZoomTransform (easingMap : String → ℚ → ℚ)
    (smoothingWindow smoothingFactor deadZone currentTime : ℚ)
    (zoomRegions : List ZoomRegion) (metadata : List MetaDataItem)
    (recordingGeometry frameContentDimensions : Dimensions)
    (st : EngineState) : TransformResult × EngineState :=
  match zoomRegions.find? (isActiveAt currentTime) with
  | none => (defaultTransform, st)
  | some region =>
      activeTransform easingMap smoothingWindow smoothingFactor deadZone currentTime region
        metadata recordingGeometry frameContentDimensions (resetState currentTime st)

/-- Timestamp of the sample at index `i`. -/
def tsAt (metadata : List MetaDataItem) (i : Nat) : ℚ :=
  (getAt metadata i).timestamp

/-- The data-model invariant of §3 of the spec: timestamps are non-decreasing. -/
def TimeSorted (metadata : List MetaDataItem) : Prop :=
  ∀ j, j < metadata.length → ∀ i, i ≤ j → tsAt metadata i ≤ tsAt metadata j

instance (metadata : List MetaDataItem) : Decidable (TimeSorted metadata) :=
  inferInstanceAs
    (Decidable (∀ j, j < metadata.length → ∀ i, i ≤ j → tsAt metadata i ≤ tsAt metadata j))

/-! ## Basic lemmas -/

lemma lerp_same (a t : ℚ) : lerp a a t = a := by
  unfold lerp; ring

lemma lerp_zero (a b : ℚ) : lerp a b 0 = a := by
  unfold lerp; ring

lemma lerp_one (a b : ℚ) : lerp a b 1 = b := by
  unfold lerp; ring

lemma frameAlpha_self (t : ℚ) : frameAlpha t t = 0 := by
  unfold frameAlpha
  norm_num

lemma clamp01_zero : max 0 (min 1 (0 : ℚ)) = 0 := by norm_num

/-! ## Correctness of the binary search -/

/-- Loop invariant proof for `findGo`. Given enough fuel, a sorted sequence,
`0 ≤ left`, `right < length`, a candidate `result` that is either the initial
`-1` (with `left` still `0`) or an already-found index `left - 1` whose
timestamp is `≤ T`, and the knowledge that everything beyond `right` is
`> T`, the loop returns `-1` exactly when every timestamp is `> T`, and
otherwise the last index with timestamp `≤ T`. -/
lemma findGo_spec (m : List MetaDataItem) (T : ℚ) :
    ∀ (fuel : Nat) (left right result : Int),
      (right + 1 - left).toNat ≤ fuel →
      TimeSorted m →
      0 ≤ left →
      right < (m.length : Int) →
      (result = -1 ∧ left = 0 ∨
        0 ≤ result ∧ result = left - 1 ∧ result < (m.length : Int) ∧
          tsAt m result.toNat ≤ T) →
      (∀ i : Nat, right < (i : Int) → i < m.length → T < tsAt m i) →
      (findGo m T fuel left right result = -1 ∧ ∀ i : Nat, i < m.length → T < tsAt m i) ∨
      (0 ≤ findGo m T fuel left right result ∧
        findGo m T fuel left right result < (m.length : Int) ∧
        tsAt m (findGo m T fuel left right result).toNat ≤ T ∧
        ∀ i : Nat, findGo m T fuel left right result < (i : Int) → i < m.length →
          T < tsAt m i) := by
  intro fuel
  induction fuel with
  | zero =>
    intro left right result hfuel hs hl hr hres hfront
    have hlr : ¬ left ≤ right := by omega
    rcases hres with ⟨hres1, hres2⟩ | ⟨h0, hres2, hres3, hres4⟩
    · subst hres1 hres2
      refine Or.inl ⟨rfl, fun i hi => hfront i (by omega) hi⟩
    · refine Or.inr ⟨?_, ?_, ?_, ?_⟩ <;> simp only [findGo]
      · exact h0
      · exact hres3
      · exact hres4
      · intro i hi hilen
        exact hfront i (by omega) hilen
  | succ n ih =>
    intro left right result hfuel hs hl hr hres hfront
    by_cases hlr : left ≤ right
    · have hmid1 : left ≤ (left + right) / 2 := by omega
      have hmid2 : (left + right) / 2 ≤ right := by omega
      by_cases hts : (getAt m ((left + right) / 2).toNat).timestamp ≤ T
      · have hstep :
            findGo m T (n + 1) left right result =
              findGo m T n ((left + right) / 2 + 1) right ((left + right) / 2) := by
          simp only [findGo]
          rw [if_pos hlr, if_pos hts]
        rw [hstep]
        refine ih ((left + right) / 2 + 1) right ((left + right) / 2) (by omega) hs
          (by omega) hr (Or.inr ⟨by omega, by omega, by omega, hts⟩) hfront
      · have hstep :
            findGo m T (n + 1) left right result =
              findGo m T n left ((left + right) / 2 - 1) result := by
          simp only [findGo]
          rw [if_pos hlr, if_neg hts]
        rw [hstep]
        refine ih left ((left + right) / 2 - 1) result (by omega) hs hl (by omega) hres ?_
        intro i hi hilen
        by_cases hir : right < (i : Int)
        · exact hfront i hir hilen
        · have hmi : ((left + right) / 2).toNat ≤ i := by omega
          have := hs i hilen ((left + right) / 2).toNat hmi
          have hTlt : T < tsAt m ((left + right) / 2).toNat := lt_of_not_le hts
          exact lt_of_lt_of_le hTlt this
    · have hstep : findGo m T (n + 1) left right result = result := by
        simp only [findGo]
        rw [if_neg hlr]
      rw [hstep]
      rcases hres with ⟨hres1, hres2⟩ | ⟨h0, hres2, hres3, hres4⟩
      · subst hres1 hres2
        refine Or.inl ⟨rfl, fun i hi => hfront i (by omega) hi⟩
      · exact Or.inr ⟨h0, hres3, hres4, fun i hi hilen => hfront i (by omega) hilen⟩

/-- Characterization of `findLastMetadataIndex` on sorted sequences: either
it is `-1` and every sample is after `T`, or it is an in-range index whose
sample is at or before `T` with every later sample after `T`. -/
lemma findLastMetadataIndex_spec (m : List MetaDataItem) (T : ℚ) (hs : TimeSorted m) :
    (findLastMetadataIndex m T = -1 ∧ ∀ i, i < m.length → T < tsAt m i) ∨
    (0 ≤ findLastMetadataIndex m T ∧ findLastMetadataIndex m T < (m.length : Int) ∧
      tsAt m (findLastMetadataIndex m T).toNat ≤ T ∧
      ∀ i : Nat, findLastMetadataIndex m T < (i : Int) → i < m.length → T < tsAt m i) := by
  unfold findLastMetadataIndex
  by_cases hempty : m.length = 0
  · rw [if_pos hempty]
    exact Or.inl ⟨rfl, fun i hi => by omega⟩
  · rw [if_neg hempty]
    refine findGo_spec m T (m.length + 1) 0 ((m.length : Int) - 1) (-1) (by omega) hs
      (by omega) (by omega) (Or.inl ⟨rfl, rfl⟩) ?_
    intro i hi hilen
    omega

/-- Range of the binary search without any sortedness assumption: the loop
only ever stores `-1` or a midpoint taken inside `[left, right]`. -/
lemma findGo_range (m : List MetaDataItem) (T : ℚ) :
    ∀ (fuel : Nat) (left right result : Int),
      0 ≤ left → right < (m.length : Int) → -1 ≤ result → result < (m.length : Int) →
      -1 ≤ findGo m T fuel left right result ∧
        findGo m T fuel left right result < (m.length : Int) := by
  intro fuel
  induction fuel with
  | zero =>
    intro left right result hl hr h1 h2
    exact ⟨h1, h2⟩
  | succ n ih =>
    intro left right result hl hr h1 h2
    by_cases hlr : left ≤ right
    · by_cases hts : (getAt m ((left + right) / 2).toNat).timestamp ≤ T
      · have hstep :
            findGo m T (n + 1) left right result =
              findGo m T n ((left + right) / 2 + 1) right ((left + right) / 2) := by
          simp only [findGo]
          rw [if_pos hlr, if_pos hts]
        rw [hstep]
        exact ih ((left + right) / 2 + 1) right ((left + right) / 2) (by omega) hr
          (by omega) (by omega)
      · have hstep :
            findGo m T (n + 1) left right result =
              findGo m T n left ((left + right) / 2 - 1) result := by
          simp only [findGo]
          rw [if_pos hlr, if_neg hts]
        rw [hstep]
        exact ih left ((left + right) / 2 - 1) result hl (by omega) h1 h2
    · have hstep : findGo m T (n + 1) left right result = result := by
        simp only [findGo]
        rw [if_neg hlr]
      rw [hstep]
      exact ⟨h1, h2⟩

/-- `findLastMetadataIndex` always returns `-1` or an index in `[0, length)`. -/
lemma findLastMetadataIndex_range (m : List MetaDataItem) (T : ℚ) :
    -1 ≤ findLastMetadataIndex m T ∧ findLastMetadataIndex m T < (m.length : Int) := by
  unfold findLastMetadataIndex
  by_cases hempty : m.length = 0
  · rw [if_pos hempty]
    constructor <;> omega
  · rw [if_neg hempty]
    exact findGo_range m T (m.length + 1) 0 ((m.length : Int) - 1) (-1) (by omega)
      (by omega) (by omega) (by omega)

/-- On a sorted sequence `findLastMetadataIndex` is monotone in the query
time. -/
lemma findLastMetadataIndex_mono (m : List MetaDataItem) (hs : TimeSorted m)
    {T1 T2 : ℚ} (h : T1 ≤ T2) :
    findLastMetadataIndex m T1 ≤ findLastMetadataIndex m T2 := by
  rcases findLastMetadataIndex_spec m T1 hs with ⟨h1, _⟩ | ⟨h1a, h1b, h1c, h1d⟩
  · rw [h1]
    exact (findLastMetadataIndex_range m T2).1
  · rcases findLastMetadataIndex_spec m T2 hs with ⟨h2a, h2b⟩ | ⟨h2a, h2b, h2c, h2d⟩
    · exfalso
      have hlt := h2b (findLastMetadataIndex m T1).toNat (by omega)
      have : tsAt m (findLastMetadataIndex m T1).toNat ≤ T2 := le_trans h1c h
      exact absurd hlt (not_lt.mpr this)
    · by_contra hcon
      push_neg at hcon
      have hlt := h2d (findLastMetadataIndex m T1).toNat (by omega) (by omega)
      have : tsAt m (findLastMetadataIndex m T1).toNat ≤ T2 := le_trans h1c h
      exact absurd hlt (not_lt.mpr this)

/-! ## Claim C3: temporal index correctness -/

/-- C3. For every sample sequence with non-decreasing timestamps and every
query time `T`, `findLastMetadataIndex` returns an in-range index `i` with
`samples[i].timestamp ≤ T` such that either `i` is the last index or
`samples[i+1].timestamp > T` (so ties resolve to the highest qualifying
index), and it returns `-1` exactly when no sample has timestamp `≤ T`. -/
theorem findLastMetadataIndex_correct (m : List MetaDataItem) (T : ℚ)
    (hs : TimeSorted m) :
    (0 ≤ findLastMetadataIndex m T →
      (findLastMetadataIndex m T).toNat < m.length ∧
      tsAt m (findLastMetadataIndex m T).toNat ≤ T ∧
      ((findLastMetadataIndex m T).toNat = m.length - 1 ∨
        T < tsAt m ((findLastMetadataIndex m T).toNat + 1))) ∧
    (findLastMetadataIndex m T = -1 ↔ ∀ i, i < m.length → T < tsAt m i) := by
  rcases findLastMetadataIndex_spec m T hs with ⟨h1, h2⟩ | ⟨h1, h2, h3, h4⟩
  · constructor
    · intro h0
      omega
    · exact ⟨fun _ => h2, fun _ => h1⟩
  · constructor
    · intro h0
      refine ⟨by omega, h3, ?_⟩
      by_cases hlast : (findLastMetadataIndex m T).toNat = m.length - 1
      · exact Or.inl hlast
      · exact Or.inr (h4 ((findLastMetadataIndex m T).toNat + 1) (by omega) (by omega))
    · constructor
      · intro hcon
        omega
      · intro hall
        exfalso
        have := hall (findLastMetadataIndex m T).toNat (by omega)
        exact absurd this (not_lt.mpr h3)

/-- Witness for C3 at a concrete sorted list with a timestamp tie at the
query time: the returned index is the highest index among the tied samples. -/
theorem findLastMetadataIndex_correct_witness :
    TimeSorted [⟨1, 0, 0⟩, ⟨2, 3, 3⟩, ⟨2, 5, 5⟩, ⟨4, 0, 0⟩] ∧
    ((0 ≤ findLastMetadataIndex [⟨1, 0, 0⟩, ⟨2, 3, 3⟩, ⟨2, 5, 5⟩, ⟨4, 0, 0⟩] 2 →
      (findLastMetadataIndex [⟨1, 0, 0⟩, ⟨2, 3, 3⟩, ⟨2, 5, 5⟩, ⟨4, 0, 0⟩] 2).toNat <
        ([⟨1, 0, 0⟩, ⟨2, 3, 3⟩, ⟨2, 5, 5⟩, ⟨4, 0, 0⟩] : List MetaDataItem).length ∧
      tsAt [⟨1, 0, 0⟩, ⟨2, 3, 3⟩, ⟨2, 5, 5⟩, ⟨4, 0, 0⟩]
        (findLastMetadataIndex [⟨1, 0, 0⟩, ⟨2, 3, 3⟩, ⟨2, 5, 5⟩, ⟨4, 0, 0⟩] 2).toNat ≤ 2 ∧
      ((findLastMetadataIndex [⟨1, 0, 0⟩, ⟨2, 3, 3⟩, ⟨2, 5, 5⟩, ⟨4, 0, 0⟩] 2).toNat =
        ([⟨1, 0, 0⟩, ⟨2, 3, 3⟩, ⟨2, 5, 5⟩, ⟨4, 0, 0⟩] : List MetaDataItem).length - 1 ∨
        2 < tsAt [⟨1, 0, 0⟩, ⟨2, 3, 3⟩, ⟨2, 5, 5⟩, ⟨4, 0, 0⟩]
          ((findLastMetadataIndex [⟨1, 0, 0⟩, ⟨2, 3, 3⟩, ⟨2, 5, 5⟩, ⟨4, 0, 0⟩] 2).toNat + 1))) ∧
    (findLastMetadataIndex [⟨1, 0, 0⟩, ⟨2, 3, 3⟩, ⟨2, 5, 5⟩, ⟨4, 0, 0⟩] 2 = -1 ↔
      ∀ i, i < ([⟨1, 0, 0⟩, ⟨2, 3, 3⟩, ⟨2, 5, 5⟩, ⟨4, 0, 0⟩] : List MetaDataItem).length →
        2 < tsAt [⟨1, 0, 0⟩, ⟨2, 3, 3⟩, ⟨2, 5, 5⟩, ⟨4, 0, 0⟩] i)) :=
  ⟨by decide, findLastMetadataIndex_correct [⟨1, 0, 0⟩, ⟨2, 3, 3⟩, ⟨2, 5, 5⟩, ⟨4, 0, 0⟩] 2
    (by decide)⟩

/-! ## Claim C10: index safety of the smoother -/

/-- C10. `findLastMetadataIndex` always returns `-1` or an index in
`[0, length)`; whenever a sample at or before the query time exists
(`endIndex ≥ 0`), the warm-up anchor `startIndex` used by
`getSmoothedMousePosition` is in `[0, length)` — so the early-return branch
for `startIndex ≥ length` is unreachable — and `endIndex` (hence every loop
index up to it, and the guarded lookahead) is in bounds. -/
theorem getSmoothedMousePosition_index_safety (m : List MetaDataItem) (T w : ℚ) :
    (-1 ≤ findLastMetadataIndex m T ∧ findLastMetadataIndex m T < (m.length : Int)) ∧
    (0 ≤ findLastMetadataIndex m T →
      0 ≤ (if findLastMetadataIndex m (max 0 (T - w)) < 0 then 0
           else findLastMetadataIndex m (max 0 (T - w))) ∧
      (if findLastMetadataIndex m (max 0 (T - w)) < 0 then 0
       else findLastMetadataIndex m (max 0 (T - w))) < (m.length : Int) ∧
      (findLastMetadataIndex m T).toNat < m.length) := by
  have hrT := findLastMetadataIndex_range m T
  have hrS := findLastMetadataIndex_range m (max 0 (T - w))
  refine ⟨hrT, fun h0 => ?_⟩
  by_cases hneg : findLastMetadataIndex m (max 0 (T - w)) < 0
  · rw [if_pos hneg]
    refine ⟨le_refl 0, by omega, by omega⟩
  · rw [if_neg hneg]
    refine ⟨by omega, by omega, by omega⟩

/-- Witness for C10 at a concrete one-sample list. -/
theorem getSmoothedMousePosition_index_safety_witness :
    ((-1 ≤ findLastMetadataIndex [⟨0, 0, 0⟩] 0 ∧
      findLastMetadataIndex [⟨0, 0, 0⟩] 0 < (([⟨0, 0, 0⟩] : List MetaDataItem).length : Int)) ∧
    (0 ≤ findLastMetadataIndex [⟨0, 0, 0⟩] 0 →
      0 ≤ (if findLastMetadataIndex [⟨0, 0, 0⟩] (max 0 ((0 : ℚ) - 1)) < 0 then 0
           else findLastMetadataIndex [⟨0, 0, 0⟩] (max 0 ((0 : ℚ) - 1))) ∧
      (if findLastMetadataIndex [⟨0, 0, 0⟩] (max 0 ((0 : ℚ) - 1)) < 0 then 0
       else findLastMetadataIndex [⟨0, 0, 0⟩] (max 0 ((0 : ℚ) - 1))) <
        (([⟨0, 0, 0⟩] : List MetaDataItem).length : Int) ∧
      (findLastMetadataIndex [⟨0, 0, 0⟩] 0).toNat < ([⟨0, 0, 0⟩] : List MetaDataItem).length)) :=
  getSmoothedMousePosition_index_safety [⟨0, 0, 0⟩] 0 1

/-! ## Claim C4: bounded pan stays in the legal envelope -/

/-- C4. For every (possibly absent) cursor position, pivot origin in
`[0,1]²`, zoom level `≥ 1` and positive geometries, the translation returned
by `calculateBoundedPan` lies within `[minT, maxT]` per axis, where
`maxT = pivot·dim·(zoom−1)/zoom` and `minT = −(1−pivot)·dim·(zoom−1)/zoom`;
and for zoom level `= 1` both bounds collapse to `0`, so the returned pan is
`(0, 0)`. -/
theorem calculateBoundedPan_bounds (mp : Option (ℚ × ℚ)) (origin : ℚ × ℚ) (z : ℚ)
    (rg fd : Dimensions)
    (hox0 : 0 ≤ origin.1) (hox1 : origin.1 ≤ 1) (hoy0 : 0 ≤ origin.2) (hoy1 : origin.2 ≤ 1)
    (hz : 1 ≤ z) (_hrw : 0 < rg.width) (_hrh : 0 < rg.height)
    (hfw : 0 < fd.width) (hfh : 0 < fd.height) :
    (-((1 - origin.1) * fd.width * (z - 1)) / z ≤ (calculateBoundedPan mp origin z rg fd).1 ∧
      (calculateBoundedPan mp origin z rg fd).1 ≤ origin.1 * fd.width * (z - 1) / z ∧
      -((1 - origin.2) * fd.height * (z - 1)) / z ≤ (calculateBoundedPan mp origin z rg fd).2 ∧
      (calculateBoundedPan mp origin z rg fd).2 ≤ origin.2 * fd.height * (z - 1) / z) ∧
    (z = 1 → calculateBoundedPan mp origin z rg fd = (0, 0)) := by
  have hz0 : 0 < z := by linarith
  have hminx : -((1 - origin.1) * fd.width * (z - 1)) / z ≤ 0 := by
    apply div_nonpos_of_nonpos_of_nonneg
    · have : 0 ≤ (1 - origin.1) * fd.width * (z - 1) := by
        apply mul_nonneg (mul_nonneg (by linarith) (le_of_lt hfw)) (by linarith)
      linarith
    · linarith
  have hmaxx : 0 ≤ origin.1 * fd.width * (z - 1) / z := by
    apply div_nonneg
    · exact mul_nonneg (mul_nonneg hox0 (le_of_lt hfw)) (by linarith)
    · linarith
  have hminy : -((1 - origin.2) * fd.height * (z - 1)) / z ≤ 0 := by
    apply div_nonpos_of_nonpos_of_nonneg
    · have : 0 ≤ (1 - origin.2) * fd.height * (z - 1) := by
        apply mul_nonneg (mul_nonneg (by linarith) (le_of_lt hfh)) (by linarith)
      linarith
    · linarith
  have hmaxy : 0 ≤ origin.2 * fd.height * (z - 1) / z := by
    apply div_nonneg
    · exact mul_nonneg (mul_nonneg hoy0 (le_of_lt hfh)) (by linarith)
    · linarith
  cases mp with
  | none =>
    constructor
    · exact ⟨hminx, hmaxx, hminy, hmaxy⟩
    · intro hz1
      rfl
  | some p =>
    constructor
    · simp only [calculateBoundedPan]
      refine ⟨le_max_left _ _, max_le (le_trans hminx hmaxx) (min_le_left _ _),
        le_max_left _ _, max_le (le_trans hminy hmaxy) (min_le_left _ _)⟩
    · intro hz1
      subst hz1
      simp only [calculateBoundedPan, sub_self, mul_zero, zero_mul, zero_div, neg_zero,
        div_one]
      rw [Prod.mk.injEq]
      constructor
      · exact max_eq_left (min_le_left _ _)
      · exact max_eq_left (min_le_left _ _)

/-- The cursor position, pivot, zoom and geometries of the C4 witness. -/
def c4mouse : Option (ℚ × ℚ) := some (1800, 100)

/-- The pivot origin of the C4 witness. -/
def c4origin : ℚ × ℚ := (1 / 2, 1 / 2)

/-- The geometry of the C4 witness (both recording and frame). -/
def c4dims : Dimensions := ⟨1920, 1080⟩

/-- Witness for C4 at a concrete off-center cursor that hits the clamp. -/
theorem calculateBoundedPan_bounds_witness :
    (-((1 - c4origin.1) * c4dims.width * ((2 : ℚ) - 1)) / 2 ≤
        (calculateBoundedPan c4mouse c4origin 2 c4dims c4dims).1 ∧
      (calculateBoundedPan c4mouse c4origin 2 c4dims c4dims).1 ≤
        c4origin.1 * c4dims.width * ((2 : ℚ) - 1) / 2 ∧
      -((1 - c4origin.2) * c4dims.height * ((2 : ℚ) - 1)) / 2 ≤
        (calculateBoundedPan c4mouse c4origin 2 c4dims c4dims).2 ∧
      (calculateBoundedPan c4mouse c4origin 2 c4dims c4dims).2 ≤
        c4origin.2 * c4dims.height * ((2 : ℚ) - 1) / 2) ∧
    ((2 : ℚ) = 1 → calculateBoundedPan c4mouse c4origin 2 c4dims c4dims = (0, 0)) :=
  calculateBoundedPan_bounds c4mouse c4origin 2 c4dims c4dims
    (by norm_num [c4origin]) (by norm_num [c4origin]) (by norm_num [c4origin])
    (by norm_num [c4origin]) (by norm_num) (by norm_num [c4dims]) (by norm_num [c4dims])
    (by norm_num [c4dims]) (by norm_num [c4dims])

/-! ## Unfolding equations of the engine -/

lemma calculateZoomTransform_none (em : String → ℚ → ℚ) (sw sf dz t : ℚ)
    (regions : List ZoomRegion) (md : List MetaDataItem) (rg fd : Dimensions)
    (st : EngineState) (hfind : regions.find? (isActiveAt t) = none) :
    calculateZoomTransform em sw sf dz t regions md rg fd st = (defaultTransform, st) := by
  simp only [calculateZoomTransform, hfind]

lemma calculateZoomTransform_some (em : String → ℚ → ℚ) (sw sf dz t : ℚ)
    (regions : List ZoomRegion) (r : ZoomRegion) (md : List MetaDataItem)
    (rg fd : Dimensions) (st : EngineState)
    (hfind : regions.find? (isActiveAt t) = some r) :
    calculateZoomTransform em sw sf dz t regions md rg fd st =
      activeTransform em sw sf dz t r md rg fd (resetState t st) := by
  simp only [calculateZoomTransform, hfind]

lemma activeTransform_zoomIn (em : String → ℚ → ℚ) (sw sf dz t : ℚ) (r : ZoomRegion)
    (md : List MetaDataItem) (rg fd : Dimensions) (st1 : EngineState)
    (h1 : r.startTime ≤ t) (h2 : t < r.startTime + r.transitionDuration) :
    activeTransform em sw sf dz t r md rg fd st1 =
      ({ scale := lerp 1 r.zoomLevel (em r.easing ((t - r.startTime) / r.transitionDuration)),
         translateX := lerp 0 (computePans sw sf dz t r md rg fd).initialPan.1
           (em r.easing ((t - r.startTime) / r.transitionDuration)),
         translateY := lerp 0 (computePans sw sf dz t r md rg fd).initialPan.2
           (em r.easing ((t - r.startTime) / r.transitionDuration)),
         transformOrigin := ((getTransformOrigin r.targetX r.targetY).1 * 100,
           (getTransformOrigin r.targetX r.targetY).2 * 100) },
       { previousPanX := lerp 0 (computePans sw sf dz t r md rg fd).initialPan.1
           (em r.easing ((t - r.startTime) / r.transitionDuration)),
         previousPanY := lerp 0 (computePans sw sf dz t r md rg fd).initialPan.2
           (em r.easing ((t - r.startTime) / r.transitionDuration)),
         lastPanUpdateTime := t }) := by
  simp only [activeTransform]
  rw [if_pos ⟨h1, h2⟩]

lemma activeTransform_hold (em : String → ℚ → ℚ) (sw sf dz t : ℚ) (r : ZoomRegion)
    (md : List MetaDataItem) (rg fd : Dimensions) (st1 : EngineState)
    (h1 : r.startTime + r.transitionDuration ≤ t)
    (h2 : t < r.startTime + r.duration - r.transitionDuration) :
    activeTransform em sw sf dz t r md rg fd st1 =
      ({ scale := r.zoomLevel,
         translateX := lerp st1.previousPanX (computePans sw sf dz t r md rg fd).livePan.1
           (max 0 (min 1 (frameAlpha t st1.lastPanUpdateTime))),
         translateY := lerp st1.previousPanY (computePans sw sf dz t r md rg fd).livePan.2
           (max 0 (min 1 (frameAlpha t st1.lastPanUpdateTime))),
         transformOrigin := ((getTransformOrigin r.targetX r.targetY).1 * 100,
           (getTransformOrigin r.targetX r.targetY).2 * 100) },
       { previousPanX := lerp st1.previousPanX (computePans sw sf dz t r md rg fd).livePan.1
           (max 0 (min 1 (frameAlpha t st1.lastPanUpdateTime))),
         previousPanY := lerp st1.previousPanY (computePans sw sf dz t r md rg fd).livePan.2
           (max 0 (min 1 (frameAlpha t st1.lastPanUpdateTime))),
         lastPanUpdateTime := t }) := by
  simp only [activeTransform]
  rw [if_neg (fun hc => absurd hc.2 (not_lt.mpr h1)), if_pos ⟨h1, h2⟩]

lemma activeTransform_zoomOut (em : String → ℚ → ℚ) (sw sf dz t : ℚ) (r : ZoomRegion)
    (md : List MetaDataItem) (rg fd : Dimensions) (st1 : EngineState)
    (h1 : r.startTime + r.transitionDuration ≤ t)
    (h2 : r.startTime + r.duration - r.transitionDuration ≤ t)
    (h3 : t ≤ r.startTime + r.duration) :
    activeTransform em sw sf dz t r md rg fd st1 =
      (let te := em r.easing
        ((t - (r.startTime + r.duration - r.transitionDuration)) / r.transitionDuration)
       let target :=
         if r.mode = Mode.auto ∧ 0 < md.length ∧ 0 < rg.width then
           ((calculateBoundedPan (getSmoothedMousePosition sw sf dz md t)
               (getTransformOrigin r.targetX r.targetY) (lerp r.zoomLevel 1 te) rg fd).1 *
             cursorInfluence te,
            (calculateBoundedPan (getSmoothedMousePosition sw sf dz md t)
               (getTransformOrigin r.targetX r.targetY) (lerp r.zoomLevel 1 te) rg fd).2 *
             cursorInfluence te)
         else
           (lerp (computePans sw sf dz t r md rg fd).finalPan.1 0 te,
            lerp (computePans sw sf dz t r md rg fd).finalPan.2 0 te)
       let fluidAlpha :=
         lerp (max 0 (min 1 (frameAlpha t st1.lastPanUpdateTime))) 1 (te ^ 4)
       ({ scale := lerp r.zoomLevel 1 te,
          translateX := lerp st1.previousPanX target.1 fluidAlpha,
          translateY := lerp st1.previousPanY target.2 fluidAlpha,
          transformOrigin := ((getTransformOrigin r.targetX r.targetY).1 * 100,
            (getTransformOrigin r.targetX r.targetY).2 * 100) },
        { previousPanX := lerp st1.previousPanX target.1 fluidAlpha,
          previousPanY := lerp st1.previousPanY target.2 fluidAlpha,
          lastPanUpdateTime := t })) := by
  simp only [activeTransform]
  rw [if_neg (fun hc => absurd hc.2 (not_lt.mpr h1)),
    if_neg (fun hc => absurd hc.2 (not_lt.mpr h2)), if_pos ⟨h2, h3⟩]

lemma computePans_auto (sw sf dz t : ℚ) (r : ZoomRegion) (md : List MetaDataItem)
    (rg fd : Dimensions) (h : r.mode = Mode.auto ∧ 0 < md.length ∧ 0 < rg.width) :
    computePans sw sf dz t r md rg fd =
      { initialPan :=
          calculateBoundedPan
            (getSmoothedMousePosition sw sf dz md (r.startTime + r.transitionDuration))
            (getTransformOrigin r.targetX r.targetY) r.zoomLevel rg fd,
        livePan :=
          calculateBoundedPan (getSmoothedMousePosition sw sf dz md t)
            (getTransformOrigin r.targetX r.targetY) r.zoomLevel rg fd,
        finalPan :=
          calculateBoundedPan
            (getSmoothedMousePosition sw sf dz md
              (r.startTime + r.duration - r.transitionDuration))
            (getTransformOrigin r.targetX r.targetY) r.zoomLevel rg fd } := by
  simp only [computePans]
  rw [if_pos h]

lemma computePans_skip (sw sf dz t : ℚ) (r : ZoomRegion) (md : List MetaDataItem)
    (rg fd : Dimensions) (h : ¬ (r.mode = Mode.auto ∧ 0 < md.length ∧ 0 < rg.width)) :
    computePans sw sf dz t r md rg fd =
      { initialPan := (0, 0), livePan := (0, 0), finalPan := (0, 0) } := by
  simp only [computePans]
  rw [if_neg h]

lemma find?_isActiveAt (t : ℚ) (regions : List ZoomRegion) (r : ZoomRegion)
    (hfind : regions.find? (isActiveAt t) = some r) :
    r.startTime ≤ t ∧ t < r.startTime + r.duration := by
  have hp := List.find?_some hfind
  simpa [isActiveAt] using hp

/-- A linear easing, one concrete member of the external easing family
(monotone on `[0,1]` with endpoints fixed). -/
def linEase : String → ℚ → ℚ := fun _ q => q

/-- A quadratic ease-in, another concrete member of the easing family. -/
def sqEase : String → ℚ → ℚ := fun _ q => q * q

/-- A clamped double-speed easing that reaches `1` at progress `1/2`. -/
def stepEase : String → ℚ → ℚ := fun _ q => min (2 * q) 1

lemma cursorInfluence_one : cursorInfluence 1 = 0 := by
  norm_num [cursorInfluence]

/-! ## Claim C5: the zoom-in phase glides to a fixed destination -/

/-- C5. During the zoom-in phase of an auto-mode region with samples and
positive recording width, the pan target is the bounded pan of the smoothed
cursor position evaluated at the fixed zoom-in end time (not at `t`), the
returned translation is `lerp 0 targetPan (e p)` with
`p = (t − startTime) / transitionDuration` eased by the region's easing, and
after the call the carryover pan state equals the returned translation. -/
theorem calculateZoomTransform_zoomIn_spec (em : String → ℚ → ℚ) (sw sf dz t : ℚ)
    (regions : List ZoomRegion) (r : ZoomRegion) (md : List MetaDataItem)
    (rg fd : Dimensions) (st : EngineState)
    (hfind : regions.find? (isActiveAt t) = some r)
    (hmode : r.mode = Mode.auto) (hmd : 0 < md.length) (hrw : 0 < rg.width)
    (h1 : r.startTime ≤ t) (h2 : t < r.startTime + r.transitionDuration) :
    (calculateZoomTransform em sw sf dz t regions md rg fd st).1.scale =
      lerp 1 r.zoomLevel (em r.easing ((t - r.startTime) / r.transitionDuration)) ∧
    (calculateZoomTransform em sw sf dz t regions md rg fd st).1.translateX =
      lerp 0
        (calculateBoundedPan
          (getSmoothedMousePosition sw sf dz md (r.startTime + r.transitionDuration))
          (getTransformOrigin r.targetX r.targetY) r.zoomLevel rg fd).1
        (em r.easing ((t - r.startTime) / r.transitionDuration)) ∧
    (calculateZoomTransform em sw sf dz t regions md rg fd st).1.translateY =
      lerp 0
        (calculateBoundedPan
          (getSmoothedMousePosition sw sf dz md (r.startTime + r.transitionDuration))
          (getTransformOrigin r.targetX r.targetY) r.zoomLevel rg fd).2
        (em r.easing ((t - r.startTime) / r.transitionDuration)) ∧
    (calculateZoomTransform em sw sf dz t regions md rg fd st).2.previousPanX =
      (calculateZoomTransform em sw sf dz t regions md rg fd st).1.translateX ∧
    (calculateZoomTransform em sw sf dz t regions md rg fd st).2.previousPanY =
      (calculateZoomTransform em sw sf dz t regions md rg fd st).1.translateY := by
  rw [calculateZoomTransform_some em sw sf dz t regions r md rg fd st hfind,
    activeTransform_zoomIn em sw sf dz t r md rg fd _ h1 h2,
    computePans_auto sw sf dz t r md rg fd ⟨hmode, hmd, hrw⟩]
  exact ⟨rfl, rfl, rfl, rfl, rfl⟩

/-- Witness for C5: a concrete auto region half-way through zoom-in. -/
theorem calculateZoomTransform_zoomIn_spec_witness :
    (calculateZoomTransform linEase (1 / 2) (1 / 2) 1 (1 / 2)
        [⟨0, 10, 2, 0, 0, Mode.auto, "lin", 1⟩] [⟨0, 100, 100⟩] ⟨1920, 1080⟩ ⟨1920, 1080⟩
        ⟨0, 0, 0⟩).1.scale =
      lerp 1 2 (linEase ("lin") (((1 / 2 : ℚ) - 0) / 1)) ∧
    (calculateZoomTransform linEase (1 / 2) (1 / 2) 1 (1 / 2)
        [⟨0, 10, 2, 0, 0, Mode.auto, "lin", 1⟩] [⟨0, 100, 100⟩] ⟨1920, 1080⟩ ⟨1920, 1080⟩
        ⟨0, 0, 0⟩).1.translateX =
      lerp 0
        (calculateBoundedPan
          (getSmoothedMousePosition (1 / 2) (1 / 2) 1 [⟨0, 100, 100⟩] ((0 : ℚ) + 1))
          (getTransformOrigin 0 0) 2 ⟨1920, 1080⟩ ⟨1920, 1080⟩).1
        (linEase ("lin") (((1 / 2 : ℚ) - 0) / 1)) ∧
    (calculateZoomTransform linEase (1 / 2) (1 / 2) 1 (1 / 2)
        [⟨0, 10, 2, 0, 0, Mode.auto, "lin", 1⟩] [⟨0, 100, 100⟩] ⟨1920, 1080⟩ ⟨1920, 1080⟩
        ⟨0, 0, 0⟩).1.translateY =
      lerp 0
        (calculateBoundedPan
          (getSmoothedMousePosition (1 / 2) (1 / 2) 1 [⟨0, 100, 100⟩] ((0 : ℚ) + 1))
          (getTransformOrigin 0 0) 2 ⟨1920, 1080⟩ ⟨1920, 1080⟩).2
        (linEase ("lin") (((1 / 2 : ℚ) - 0) / 1)) ∧
    (calculateZoomTransform linEase (1 / 2) (1 / 2) 1 (1 / 2)
        [⟨0, 10, 2, 0, 0, Mode.auto, "lin", 1⟩] [⟨0, 100, 100⟩] ⟨1920, 1080⟩ ⟨1920, 1080⟩
        ⟨0, 0, 0⟩).2.previousPanX =
      (calculateZoomTransform linEase (1 / 2) (1 / 2) 1 (1 / 2)
        [⟨0, 10, 2, 0, 0, Mode.auto, "lin", 1⟩] [⟨0, 100, 100⟩] ⟨1920, 1080⟩ ⟨1920, 1080⟩
        ⟨0, 0, 0⟩).1.translateX ∧
    (calculateZoomTransform linEase (1 / 2) (1 / 2) 1 (1 / 2)
        [⟨0, 10, 2, 0, 0, Mode.auto, "lin", 1⟩] [⟨0, 100, 100⟩] ⟨1920, 1080⟩ ⟨1920, 1080⟩
        ⟨0, 0, 0⟩).2.previousPanY =
      (calculateZoomTransform linEase (1 / 2) (1 / 2) 1 (1 / 2)
        [⟨0, 10, 2, 0, 0, Mode.auto, "lin", 1⟩] [⟨0, 100, 100⟩] ⟨1920, 1080⟩ ⟨1920, 1080⟩
        ⟨0, 0, 0⟩).1.translateY :=
  calculateZoomTransform_zoomIn_spec linEase (1 / 2) (1 / 2) 1 (1 / 2)
    [⟨0, 10, 2, 0, 0, Mode.auto, "lin", 1⟩] ⟨0, 10, 2, 0, 0, Mode.auto, "lin", 1⟩
    [⟨0, 100, 100⟩] ⟨1920, 1080⟩ ⟨1920, 1080⟩ ⟨0, 0, 0⟩
    (by norm_num [List.find?, isActiveAt]) rfl (by norm_num) (by norm_num)
    (by norm_num) (by norm_num)

/-! ## Claim C7: convergence at the end of zoom-out -/

/-- C7. In the zoom-out phase, the smoothing alpha is blended toward `1` by
the convergence factor `t⁴` of the eased progress `t`; when the eased
progress reaches `1`, the alpha is exactly `1` and the returned translation
equals the pan target exactly, which is `0` both in auto mode (cursor
influence is `0`) and in the non-auto branch (`lerp finalPan 0 1 = 0`), and
the returned scale is `1` — the scale/translate part of the identity
transform returned once the region ends. -/
theorem calculateZoomTransform_zoomOut_converged (em : String → ℚ → ℚ)
    (sw sf dz t : ℚ) (regions : List ZoomRegion) (r : ZoomRegion)
    (md : List MetaDataItem) (rg fd : Dimensions) (st : EngineState)
    (hfind : regions.find? (isActiveAt t) = some r)
    (h1 : r.startTime + r.transitionDuration ≤ t)
    (h2 : r.startTime + r.duration - r.transitionDuration ≤ t)
    (hease : em r.easing
      ((t - (r.startTime + r.duration - r.transitionDuration)) / r.transitionDuration) = 1) :
    (calculateZoomTransform em sw sf dz t regions md rg fd st).1.scale = 1 ∧
    (calculateZoomTransform em sw sf dz t regions md rg fd st).1.translateX = 0 ∧
    (calculateZoomTransform em sw sf dz t regions md rg fd st).1.translateY = 0 := by
  have hp := find?_isActiveAt t regions r hfind
  rw [calculateZoomTransform_some em sw sf dz t regions r md rg fd st hfind,
    activeTransform_zoomOut em sw sf dz t r md rg fd _ h1 h2 (le_of_lt hp.2)]
  simp only [hease, lerp_one, one_pow, cursorInfluence_one, mul_zero, ite_self]
  exact ⟨trivial, trivial, trivial⟩

/-- Witness for C7: a fixed-mode region with a clamped double-speed easing
whose eased progress reaches `1` strictly inside the zoom-out phase; the
transform is already the identity there. -/
theorem calculateZoomTransform_zoomOut_converged_witness :
    (calculateZoomTransform stepEase (1 / 2) (1 / 2) 1 9
        [⟨0, 10, 2, 0, 0, Mode.fixed, "st", 2⟩] [] ⟨1920, 1080⟩ ⟨1920, 1080⟩
        ⟨3, 4, 87 / 10⟩).1.scale = 1 ∧
    (calculateZoomTransform stepEase (1 / 2) (1 / 2) 1 9
        [⟨0, 10, 2, 0, 0, Mode.fixed, "st", 2⟩] [] ⟨1920, 1080⟩ ⟨1920, 1080⟩
        ⟨3, 4, 87 / 10⟩).1.translateX = 0 ∧
    (calculateZoomTransform stepEase (1 / 2) (1 / 2) 1 9
        [⟨0, 10, 2, 0, 0, Mode.fixed, "st", 2⟩] [] ⟨1920, 1080⟩ ⟨1920, 1080⟩
        ⟨3, 4, 87 / 10⟩).1.translateY = 0 :=
  calculateZoomTransform_zoomOut_converged stepEase (1 / 2) (1 / 2) 1 9
    [⟨0, 10, 2, 0, 0, Mode.fixed, "st", 2⟩] ⟨0, 10, 2, 0, 0, Mode.fixed, "st", 2⟩
    [] ⟨1920, 1080⟩ ⟨1920, 1080⟩ ⟨3, 4, 87 / 10⟩
    (by norm_num [List.find?, isActiveAt]) (by norm_num) (by norm_num)
    (by norm_num [stepEase])

/-! ## Claim C6: the cursor-influence factor of the zoom-out phase -/

lemma resetState_last (t : ℚ) (st : EngineState) :
    (resetState t st).lastPanUpdateTime = st.lastPanUpdateTime := by
  unfold resetState
  split <;> rfl

/-- Counterexample to C6 as stated. The claim applies the cursor-influence
decay to the raw zoom-out progress `p = (t − zoomOutStart)/transitionDuration`;
here the raw progress is `1/5 > 0.05`, so the claimed influence is `0` and the
claimed pan target — hence the returned translation, given a zero carried
pan — is `0`. The code instead applies the decay to the eased progress
(`(1/5)² = 1/25 ≤ 0.05`), and returns a non-zero translation. -/
theorem calculateZoomTransform_rawInfluence_cex :
    cursorInfluence (((8 : ℚ) - 15 / 2) / (5 / 2)) = 0 ∧
    (calculateZoomTransform sqEase (1 / 2) (1 / 2) 1 8
        [⟨0, 10, 2, 0, 0, Mode.auto, "sq", 5 / 2⟩] [⟨0, 1920, 1080⟩]
        ⟨1920, 1080⟩ ⟨1920, 1080⟩ ⟨0, 0, 196 / 25⟩).1.translateX = -4608 / 49 ∧
    ¬ ((-4608 : ℚ) / 49 = 0) := by
  refine ⟨by norm_num [cursorInfluence], ?_, by norm_num⟩
  norm_num [calculateZoomTransform, List.find?, isActiveAt, resetState, activeTransform,
    computePans, getSmoothedMousePosition, findLastMetadataIndex, findGo, getAt,
    smoothIter, emaStep, calculateBoundedPan, getTransformOrigin, cursorInfluence,
    frameAlpha, lerp, PAN_SMOOTHING_FACTOR, sqEase, lt_abs]

/-- C6 as amended: in the zoom-out phase of an auto-mode region (samples
present, positive recording width), the pan target is the live bounded pan at
`t` — computed at the current interpolated scale — multiplied by the
cursor-influence factor `1 − t/0.05` for `t ≤ 0.05` and `0` otherwise, where
`t` is the EASED zoom-out progress
`e((currentTime − zoomOutStart)/transitionDuration)`; the returned
translation eases toward that target with the convergence-blended alpha. -/
theorem calculateZoomTransform_zoomOut_influence_eased (em : String → ℚ → ℚ)
    (sw sf dz t : ℚ) (regions : List ZoomRegion) (r : ZoomRegion)
    (md : List MetaDataItem) (rg fd : Dimensions) (st : EngineState)
    (hfind : regions.find? (isActiveAt t) = some r)
    (hmode : r.mode = Mode.auto) (hmd : 0 < md.length) (hrw : 0 < rg.width)
    (h1 : r.startTime + r.transitionDuration ≤ t)
    (h2 : r.startTime + r.duration - r.transitionDuration ≤ t) :
    (calculateZoomTransform em sw sf dz t regions md rg fd st).1.translateX =
      lerp (resetState t st).previousPanX
        ((calculateBoundedPan (getSmoothedMousePosition sw sf dz md t)
            (getTransformOrigin r.targetX r.targetY)
            (lerp r.zoomLevel 1 (em r.easing
              ((t - (r.startTime + r.duration - r.transitionDuration)) /
                r.transitionDuration))) rg fd).1 *
          cursorInfluence (em r.easing
            ((t - (r.startTime + r.duration - r.transitionDuration)) /
              r.transitionDuration)))
        (lerp (max 0 (min 1 (frameAlpha t st.lastPanUpdateTime))) 1
          ((em r.easing
            ((t - (r.startTime + r.duration - r.transitionDuration)) /
              r.transitionDuration)) ^ 4)) ∧
    (calculateZoomTransform em sw sf dz t regions md rg fd st).1.translateY =
      lerp (resetState t st).previousPanY
        ((calculateBoundedPan (getSmoothedMousePosition sw sf dz md t)
            (getTransformOrigin r.targetX r.targetY)
            (lerp r.zoomLevel 1 (em r.easing
              ((t - (r.startTime + r.duration - r.transitionDuration)) /
                r.transitionDuration))) rg fd).2 *
          cursorInfluence (em r.easing
            ((t - (r.startTime + r.duration - r.transitionDuration)) /
              r.transitionDuration)))
        (lerp (max 0 (min 1 (frameAlpha t st.lastPanUpdateTime))) 1
          ((em r.easing
            ((t - (r.startTime + r.duration - r.transitionDuration)) /
              r.transitionDuration)) ^ 4)) := by
  have hp := find?_isActiveAt t regions r hfind
  rw [calculateZoomTransform_some em sw sf dz t regions r md rg fd st hfind,
    activeTransform_zoomOut em sw sf dz t r md rg fd _ h1 h2 (le_of_lt hp.2)]
  rw [resetState_last]
  simp only [if_pos (show r.mode = Mode.auto ∧ 0 < md.length ∧ 0 < rg.width from
    ⟨hmode, hmd, hrw⟩)]
  constructor <;> trivial

/-- Witness for the amended C6 at the counterexample's input: the engine's
translation matches the eased-influence formula. -/
theorem calculateZoomTransform_zoomOut_influence_eased_witness :
    (calculateZoomTransform sqEase (1 / 2) (1 / 2) 1 8
        [⟨0, 10, 2, 0, 0, Mode.auto, "sq", 5 / 2⟩] [⟨0, 1920, 1080⟩]
        ⟨1920, 1080⟩ ⟨1920, 1080⟩ ⟨0, 0, 196 / 25⟩).1.translateX =
      lerp (resetState 8 ⟨0, 0, 196 / 25⟩).previousPanX
        ((calculateBoundedPan
            (getSmoothedMousePosition (1 / 2) (1 / 2) 1 [⟨0, 1920, 1080⟩] 8)
            (getTransformOrigin 0 0)
            (lerp 2 1 (sqEase ("sq") (((8 : ℚ) - (0 + 10 - 5 / 2)) / (5 / 2))))
            ⟨1920, 1080⟩ ⟨1920, 1080⟩).1 *
          cursorInfluence (sqEase ("sq") (((8 : ℚ) - (0 + 10 - 5 / 2)) / (5 / 2))))
        (lerp (max 0 (min 1 (frameAlpha 8 (196 / 25)))) 1
          ((sqEase ("sq") (((8 : ℚ) - (0 + 10 - 5 / 2)) / (5 / 2))) ^ 4)) ∧
    (calculateZoomTransform sqEase (1 / 2) (1 / 2) 1 8
        [⟨0, 10, 2, 0, 0, Mode.auto, "sq", 5 / 2⟩] [⟨0, 1920, 1080⟩]
        ⟨1920, 1080⟩ ⟨1920, 1080⟩ ⟨0, 0, 196 / 25⟩).1.translateY =
      lerp (resetState 8 ⟨0, 0, 196 / 25⟩).previousPanY
        ((calculateBoundedPan
            (getSmoothedMousePosition (1 / 2) (1 / 2) 1 [⟨0, 1920, 1080⟩] 8)
            (getTransformOrigin 0 0)
            (lerp 2 1 (sqEase ("sq") (((8 : ℚ) - (0 + 10 - 5 / 2)) / (5 / 2))))
            ⟨1920, 1080⟩ ⟨1920, 1080⟩).2 *
          cursorInfluence (sqEase ("sq") (((8 : ℚ) - (0 + 10 - 5 / 2)) / (5 / 2))))
        (lerp (max 0 (min 1 (frameAlpha 8 (196 / 25)))) 1
          ((sqEase ("sq") (((8 : ℚ) - (0 + 10 - 5 / 2)) / (5 / 2))) ^ 4)) :=
  calculateZoomTransform_zoomOut_influence_eased sqEase (1 / 2) (1 / 2) 1 8
    [⟨0, 10, 2, 0, 0, Mode.auto, "sq", 5 / 2⟩] ⟨0, 10, 2, 0, 0, Mode.auto, "sq", 5 / 2⟩
    [⟨0, 1920, 1080⟩] ⟨1920, 1080⟩ ⟨1920, 1080⟩ ⟨0, 0, 196 / 25⟩
    (by norm_num [List.find?, isActiveAt]) rfl (by norm_num) (by norm_num)
    (by norm_num) (by norm_num)

/-! ## Claim C1: idempotence of a repeated call -/

lemma resetState_same_time (t a b : ℚ) :
    resetState t ⟨a, b, t⟩ = ⟨a, b, t⟩ := by
  unfold resetState
  rw [if_neg]
  norm_num

/-- Counterexample to C1 as stated. In the zoom-out phase the engine
re-applies the convergence-blended smoothing alpha on every call, so a second
call with identical arguments and the state left by the first call moves the
translation again: here the first call returns `45/128` and the second
`675/2048`. (Inputs: a fixed-mode region `[0,1)` with transition `0.4`,
linear easing, query time `0.8`, carried pan `1` from `0.1`s earlier.) -/
theorem calculateZoomTransform_repeat_differs :
    (calculateZoomTransform linEase (1 / 2) (1 / 2) 1 (4 / 5)
        [⟨0, 1, 2, 0, 0, Mode.fixed, "lin", 2 / 5⟩] [] ⟨1920, 1080⟩ ⟨1920, 1080⟩
        ⟨1, 0, 7 / 10⟩).1.translateX = 45 / 128 ∧
    (calculateZoomTransform linEase (1 / 2) (1 / 2) 1 (4 / 5)
        [⟨0, 1, 2, 0, 0, Mode.fixed, "lin", 2 / 5⟩] [] ⟨1920, 1080⟩ ⟨1920, 1080⟩
        ((calculateZoomTransform linEase (1 / 2) (1 / 2) 1 (4 / 5)
          [⟨0, 1, 2, 0, 0, Mode.fixed, "lin", 2 / 5⟩] [] ⟨1920, 1080⟩ ⟨1920, 1080⟩
          ⟨1, 0, 7 / 10⟩).2)).1.translateX = 675 / 2048 ∧
    ¬ ((45 : ℚ) / 128 = 675 / 2048) := by
  refine ⟨?_, ?_, by norm_num⟩ <;>
    norm_num [calculateZoomTransform, List.find?, isActiveAt, resetState, activeTransform,
      computePans, cursorInfluence, frameAlpha, lerp, PAN_SMOOTHING_FACTOR, linEase, lt_abs]

/-- C1 as amended: calling the engine twice in a row with identical arguments
— the second call seeing the state as the first call left it, with the same
query time — returns the identical result and state, in the inactive, zoom-in
and hold phases (every phase except zoom-out, where the convergence blend is
re-applied). -/
theorem calculateZoomTransform_idem_outside_zoomOut (em : String → ℚ → ℚ)
    (sw sf dz t : ℚ) (regions : List ZoomRegion) (md : List MetaDataItem)
    (rg fd : Dimensions) (st : EngineState)
    (h : ∀ r, regions.find? (isActiveAt t) = some r →
      t < r.startTime + r.duration - r.transitionDuration) :
    calculateZoomTransform em sw sf dz t regions md rg fd
        (calculateZoomTransform em sw sf dz t regions md rg fd st).2 =
      calculateZoomTransform em sw sf dz t regions md rg fd st := by
  cases hfind : regions.find? (isActiveAt t) with
  | none =>
    rw [calculateZoomTransform_none em sw sf dz t regions md rg fd st hfind,
      calculateZoomTransform_none em sw sf dz t regions md rg fd _ hfind]
  | some r =>
    have hp := find?_isActiveAt t regions r hfind
    have hzo := h r hfind
    by_cases hzi : t < r.startTime + r.transitionDuration
    · rw [calculateZoomTransform_some em sw sf dz t regions r md rg fd st hfind,
        activeTransform_zoomIn em sw sf dz t r md rg fd _ hp.1 hzi,
        calculateZoomTransform_some em sw sf dz t regions r md rg fd _ hfind,
        activeTransform_zoomIn em sw sf dz t r md rg fd _ hp.1 hzi]
    · push_neg at hzi
      rw [calculateZoomTransform_some em sw sf dz t regions r md rg fd st hfind,
        activeTransform_hold em sw sf dz t r md rg fd _ hzi hzo,
        calculateZoomTransform_some em sw sf dz t regions r md rg fd _ hfind,
        activeTransform_hold em sw sf dz t r md rg fd _ hzi hzo]
      simp only [resetState_same_time, frameAlpha_self, clamp01_zero, lerp_zero]

/-- Witness for the amended C1: a concrete auto region in the hold phase; the
second call reproduces the first call's output and state exactly. -/
theorem calculateZoomTransform_idem_witness :
    calculateZoomTransform linEase (1 / 2) (1 / 2) 1 2
        [⟨0, 10, 2, 0, 0, Mode.auto, "lin", 1⟩] [⟨0, 100, 100⟩] ⟨1920, 1080⟩ ⟨1920, 1080⟩
        ((calculateZoomTransform linEase (1 / 2) (1 / 2) 1 2
          [⟨0, 10, 2, 0, 0, Mode.auto, "lin", 1⟩] [⟨0, 100, 100⟩] ⟨1920, 1080⟩ ⟨1920, 1080⟩
          ⟨5, 5, 9 / 5⟩).2) =
      calculateZoomTransform linEase (1 / 2) (1 / 2) 1 2
        [⟨0, 10, 2, 0, 0, Mode.auto, "lin", 1⟩] [⟨0, 100, 100⟩] ⟨1920, 1080⟩ ⟨1920, 1080⟩
        ⟨5, 5, 9 / 5⟩ := by
  refine calculateZoomTransform_idem_outside_zoomOut linEase (1 / 2) (1 / 2) 1 2
    [⟨0, 10, 2, 0, 0, Mode.auto, "lin", 1⟩] [⟨0, 100, 100⟩] ⟨1920, 1080⟩ ⟨1920, 1080⟩
    ⟨5, 5, 9 / 5⟩ ?_
  intro r hr
  rw [show ([⟨0, 10, 2, 0, 0, Mode.auto, "lin", 1⟩] : List ZoomRegion).find?
      (isActiveAt 2) = some ⟨0, 10, 2, 0, 0, Mode.auto, "lin", 1⟩ from
    by norm_num [List.find?, isActiveAt]] at hr
  injection hr with hr
  subst hr
  norm_num

/-! ## Claim C9: discontinuity (seek) resets the carried pan -/

/-- C9. For every call whose query time differs from the previous call's
recorded time by more than `0.5` seconds (in either direction), the engine
behaves as if the carried pan had been reset to the neutral `(0, 0)` before
computing: the returned transform coincides with the transform computed from
the neutral state, and whenever a region is active the entire call (result
and updated state) coincides with the neutral-state call, so the stale pan
never influences anything. -/
theorem calculateZoomTransform_seek_reset (em : String → ℚ → ℚ)
    (sw sf dz t : ℚ) (regions : List ZoomRegion) (md : List MetaDataItem)
    (rg fd : Dimensions) (st : EngineState)
    (h : 1 / 2 < |t - st.lastPanUpdateTime|) :
    (calculateZoomTransform em sw sf dz t regions md rg fd st).1 =
      (calculateZoomTransform em sw sf dz t regions md rg fd
        ⟨0, 0, st.lastPanUpdateTime⟩).1 ∧
    ((regions.find? (isActiveAt t)).isSome = true →
      calculateZoomTransform em sw sf dz t regions md rg fd st =
        calculateZoomTransform em sw sf dz t regions md rg fd
          ⟨0, 0, st.lastPanUpdateTime⟩) := by
  have hr1 : resetState t st = ⟨0, 0, st.lastPanUpdateTime⟩ := by
    unfold resetState
    rw [if_pos h]
  have hr2 : resetState t (⟨0, 0, st.lastPanUpdateTime⟩ : EngineState) =
      ⟨0, 0, st.lastPanUpdateTime⟩ := by
    unfold resetState
    rw [if_pos h]
  cases hfind : regions.find? (isActiveAt t) with
  | none =>
    rw [calculateZoomTransform_none em sw sf dz t regions md rg fd st hfind,
      calculateZoomTransform_none em sw sf dz t regions md rg fd _ hfind]
    exact ⟨rfl, fun hcon => by simp at hcon⟩
  | some r =>
    have heq : calculateZoomTransform em sw sf dz t regions md rg fd st =
        calculateZoomTransform em sw sf dz t regions md rg fd
          ⟨0, 0, st.lastPanUpdateTime⟩ := by
      rw [calculateZoomTransform_some em sw sf dz t regions r md rg fd st hfind,
        calculateZoomTransform_some em sw sf dz t regions r md rg fd _ hfind, hr1, hr2]
    exact ⟨by rw [heq], fun _ => heq⟩

/-- Witness for C9: an active auto region queried `2`s after the recorded
time; the call from the stale state and from the neutral state agree in full. -/
theorem calculateZoomTransform_seek_reset_witness :
    (calculateZoomTransform linEase (1 / 2) (1 / 2) 1 2
        [⟨0, 10, 2, 0, 0, Mode.auto, "lin", 1⟩] [⟨0, 100, 100⟩] ⟨1920, 1080⟩ ⟨1920, 1080⟩
        ⟨5, 5, 0⟩).1 =
      (calculateZoomTransform linEase (1 / 2) (1 / 2) 1 2
        [⟨0, 10, 2, 0, 0, Mode.auto, "lin", 1⟩] [⟨0, 100, 100⟩] ⟨1920, 1080⟩ ⟨1920, 1080⟩
        ⟨0, 0, 0⟩).1 ∧
    calculateZoomTransform linEase (1 / 2) (1 / 2) 1 2
        [⟨0, 10, 2, 0, 0, Mode.auto, "lin", 1⟩] [⟨0, 100, 100⟩] ⟨1920, 1080⟩ ⟨1920, 1080⟩
        ⟨5, 5, 0⟩ =
      calculateZoomTransform linEase (1 / 2) (1 / 2) 1 2
        [⟨0, 10, 2, 0, 0, Mode.auto, "lin", 1⟩] [⟨0, 100, 100⟩] ⟨1920, 1080⟩ ⟨1920, 1080⟩
        ⟨0, 0, 0⟩ := by
  have hw := calculateZoomTransform_seek_reset linEase (1 / 2) (1 / 2) 1 2
    [⟨0, 10, 2, 0, 0, Mode.auto, "lin", 1⟩] [⟨0, 100, 100⟩] ⟨1920, 1080⟩ ⟨1920, 1080⟩
    ⟨5, 5, 0⟩ (by norm_num [lt_abs])
  exact ⟨hw.1, hw.2 (by norm_num [List.find?, isActiveAt])⟩

/-! ## Claim C2: degenerate geometry and the pan computation -/

/-- Counterexample to C2 as stated. A zero recording HEIGHT (with positive
width) does not make the engine skip the pan computation — the guard on lines
194 and 252 checks only `recordingGeometry.width > 0` — and the computed
translation is not zero: in the hold phase of an auto region with a single
sample at `(100, 100)`, zero carried pan and full smoothing alpha, the engine
returns `translateY = 270`. (In IEEE arithmetic the division by the zero
height makes `nsmy` infinite and the clamp returns the non-zero bound
`minTy`; in this exact-rational model the division yields `0` and the clamp
returns the non-zero bound `maxTy = 270`. Either way the claimed zero pan is
violated.) -/
theorem calculateZoomTransform_zero_height_cex :
    (calculateZoomTransform linEase (1 / 2) (1 / 2) 1 2
        [⟨0, 10, 2, 0, 0, Mode.auto, "lin", 1⟩] [⟨0, 100, 100⟩]
        ⟨1920, 0⟩ ⟨1920, 1080⟩ ⟨0, 0, 46 / 25⟩).1.translateY = 270 ∧
    ¬ ((270 : ℚ) = 0) := by
  refine ⟨?_, by norm_num⟩
  norm_num [calculateZoomTransform, List.find?, isActiveAt, resetState, activeTransform,
    computePans, getSmoothedMousePosition, findLastMetadataIndex, findGo, getAt,
    smoothIter, emaStep, calculateBoundedPan, getTransformOrigin, frameAlpha, lerp,
    PAN_SMOOTHING_FACTOR, linEase, lt_abs]

/-- C2 as amended: the engine skips the pan computation exactly when the
recording-geometry WIDTH is not positive (or the mode is not auto, or there
are no samples); when the width is non-positive and the carried pan is zero,
the returned translation is zero in every phase. Zero recording height and
zero frame dimensions are not short-circuited. -/
theorem calculateZoomTransform_zero_width_skip (em : String → ℚ → ℚ)
    (sw sf dz t : ℚ) (regions : List ZoomRegion) (md : List MetaDataItem)
    (rg fd : Dimensions) (st : EngineState)
    (hrw : rg.width ≤ 0) (hx : st.previousPanX = 0) (hy : st.previousPanY = 0) :
    (calculateZoomTransform em sw sf dz t regions md rg fd st).1.translateX = 0 ∧
    (calculateZoomTransform em sw sf dz t regions md rg fd st).1.translateY = 0 := by
  have hcond : ∀ r : ZoomRegion, ¬ (r.mode = Mode.auto ∧ 0 < md.length ∧ 0 < rg.width) :=
    fun r hc => absurd hc.2.2 (not_lt.mpr hrw)
  cases hfind : regions.find? (isActiveAt t) with
  | none =>
    rw [calculateZoomTransform_none em sw sf dz t regions md rg fd st hfind]
    exact ⟨rfl, rfl⟩
  | some r =>
    have hp := find?_isActiveAt t regions r hfind
    have hrsx : (resetState t st).previousPanX = 0 := by
      unfold resetState
      split
      · rfl
      · exact hx
    have hrsy : (resetState t st).previousPanY = 0 := by
      unfold resetState
      split
      · rfl
      · exact hy
    rw [calculateZoomTransform_some em sw sf dz t regions r md rg fd st hfind]
    by_cases hzi : t < r.startTime + r.transitionDuration
    · rw [activeTransform_zoomIn em sw sf dz t r md rg fd _ hp.1 hzi,
        computePans_skip sw sf dz t r md rg fd (hcond r)]
      constructor <;> simp [lerp_same]
    · push_neg at hzi
      by_cases hhold : t < r.startTime + r.duration - r.transitionDuration
      · rw [activeTransform_hold em sw sf dz t r md rg fd _ hzi hhold,
          computePans_skip sw sf dz t r md rg fd (hcond r)]
        constructor <;> simp [hrsx, hrsy, lerp_same]
      · push_neg at hhold
        rw [activeTransform_zoomOut em sw sf dz t r md rg fd _ hzi hhold (le_of_lt hp.2),
          computePans_skip sw sf dz t r md rg fd (hcond r)]
        simp only [if_neg (hcond r)]
        constructor <;> simp [hrsx, hrsy, lerp_same]

/-- Witness for the amended C2: zero recording width, auto region with a
sample, hold phase, zero carried pan — the translation is zero. -/
theorem calculateZoomTransform_zero_width_skip_witness :
    (calculateZoomTransform linEase (1 / 2) (1 / 2) 1 2
        [⟨0, 10, 2, 0, 0, Mode.auto, "lin", 1⟩] [⟨0, 100, 100⟩]
        ⟨0, 1080⟩ ⟨1920, 1080⟩ ⟨0, 0, 46 / 25⟩).1.translateX = 0 ∧
    (calculateZoomTransform linEase (1 / 2) (1 / 2) 1 2
        [⟨0, 10, 2, 0, 0, Mode.auto, "lin", 1⟩] [⟨0, 100, 100⟩]
        ⟨0, 1080⟩ ⟨1920, 1080⟩ ⟨0, 0, 46 / 25⟩).1.translateY = 0 :=
  calculateZoomTransform_zero_width_skip linEase (1 / 2) (1 / 2) 1 2
    [⟨0, 10, 2, 0, 0, Mode.auto, "lin", 1⟩] [⟨0, 100, 100⟩] ⟨0, 1080⟩ ⟨1920, 1080⟩
    ⟨0, 0, 46 / 25⟩ (by norm_num) rfl rfl

/-! ## Claim C8: a constant stream is a fixed point of the smoother -/

lemma emaStep_const (dz sf x y : ℚ) (it : MetaDataItem)
    (hx : it.x = x) (hy : it.y = y) :
    emaStep dz sf (x, y) it = (x, y) := by
  simp only [emaStep, hx, hy, lerp_same]

lemma smoothIter_const (m : List MetaDataItem) (dz sf x y : ℚ) :
    ∀ (k i : Nat), (∀ j, i ≤ j → j < i + k → (getAt m j).x = x ∧ (getAt m j).y = y) →
      smoothIter m dz sf i k (x, y) = (x, y) := by
  intro k
  induction k with
  | zero =>
    intro i _
    rfl
  | succ n ih =>
    intro i hconst
    have h0 := hconst i (le_refl i) (by omega)
    simp only [smoothIter, emaStep_const dz sf x y (getAt m i) h0.1 h0.2]
    exact ih (i + 1) fun j hj1 hj2 => hconst j (by omega) (by omega)

/-- Counterexample to C8 as stated. With negative timestamps the warm-up
anchor — the last sample at or before `max(0, T − window)`, clamped at time
`0` — can land at an index strictly beyond the query index and its lookahead.
Here the query time is `-10`, the sample at or before it (index `0`) and the
lookahead sample (index `1`) both sit at position `(1, 1)`, yet the smoother
seeds itself from index `2` (position `(7, 7)`), runs no EMA step and returns
`(7, 7)`, not the constant position `(1, 1)` — for a smoothing factor
`1/2 ∈ (0, 1]` and dead zone `1`. -/
theorem getSmoothedMousePosition_negative_time_cex :
    TimeSorted [⟨-10, 1, 1⟩, ⟨-5, 1, 1⟩, ⟨-1, 7, 7⟩] ∧
    findLastMetadataIndex [⟨-10, 1, 1⟩, ⟨-5, 1, 1⟩, ⟨-1, 7, 7⟩] (-10) = 0 ∧
    (getAt [⟨-10, 1, 1⟩, ⟨-5, 1, 1⟩, ⟨-1, 7, 7⟩] 0).x = 1 ∧
    (getAt [⟨-10, 1, 1⟩, ⟨-5, 1, 1⟩, ⟨-1, 7, 7⟩] 0).y = 1 ∧
    (getAt [⟨-10, 1, 1⟩, ⟨-5, 1, 1⟩, ⟨-1, 7, 7⟩] 1).x = 1 ∧
    (getAt [⟨-10, 1, 1⟩, ⟨-5, 1, 1⟩, ⟨-1, 7, 7⟩] 1).y = 1 ∧
    getSmoothedMousePosition (1 / 2) (1 / 2) 1 [⟨-10, 1, 1⟩, ⟨-5, 1, 1⟩, ⟨-1, 7, 7⟩]
        (-10) = some (7, 7) ∧
    ¬ ((some ((7 : ℚ), (7 : ℚ)) : Option (ℚ × ℚ)) = some (1, 1)) := by
  refine ⟨by decide, by decide, by decide, by decide, by decide, by decide, ?_, by decide⟩
  norm_num [getSmoothedMousePosition, findLastMetadataIndex, findGo, getAt, smoothIter,
    lerp]

/-- C8 as amended: for every sample sequence with non-decreasing and
NONNEGATIVE timestamps, a nonnegative smoothing window, and a query time with
some sample at or before it, if all samples up to the query index plus the
one lookahead sample have the same position `(x, y)`, then
`getSmoothedMousePosition` returns exactly that position, for every smoothing
factor in `(0, 1]` and every dead-zone radius. (Nonnegative timestamps keep
the 0-clamped warm-up anchor at or before the query index.) -/
theorem getSmoothedMousePosition_const_fixed_point (w sf dz x y T : ℚ)
    (m : List MetaDataItem)
    (hs : TimeSorted m) (hw : 0 ≤ w)
    (hts : ∀ i, i < m.length → 0 ≤ tsAt m i)
    (_hsf0 : 0 < sf) (_hsf1 : sf ≤ 1)
    (he : 0 ≤ findLastMetadataIndex m T)
    (hconst : ∀ i, i < m.length → (i : Int) ≤ findLastMetadataIndex m T + 1 →
      (getAt m i).x = x ∧ (getAt m i).y = y) :
    getSmoothedMousePosition w sf dz m T = some (x, y) := by
  have hrange := findLastMetadataIndex_range m T
  have hle : tsAt m (findLastMetadataIndex m T).toNat ≤ T := by
    rcases findLastMetadataIndex_spec m T hs with ⟨h1, _⟩ | ⟨_, _, h3, _⟩
    · omega
    · exact h3
  have hT0 : 0 ≤ T := le_trans (hts (findLastMetadataIndex m T).toNat (by omega)) hle
  have hmono : findLastMetadataIndex m (max 0 (T - w)) ≤ findLastMetadataIndex m T :=
    findLastMetadataIndex_mono m hs (max_le hT0 (by linarith))
  simp only [getSmoothedMousePosition]
  rw [if_neg (not_lt.mpr he)]
  have hsix : 0 ≤ (if findLastMetadataIndex m (max 0 (T - w)) < 0 then 0
        else findLastMetadataIndex m (max 0 (T - w))) ∧
      (if findLastMetadataIndex m (max 0 (T - w)) < 0 then 0
        else findLastMetadataIndex m (max 0 (T - w))) ≤ findLastMetadataIndex m T := by
    split <;> omega
  rw [if_neg (not_le.mpr (show (if findLastMetadataIndex m (max 0 (T - w)) < 0 then 0
    else findLastMetadataIndex m (max 0 (T - w))) < (m.length : Int) by omega))]
  obtain ⟨hfx, hfy⟩ := hconst (if findLastMetadataIndex m (max 0 (T - w)) < 0 then 0
      else findLastMetadataIndex m (max 0 (T - w))).toNat (by omega) (by omega)
  rw [hfx, hfy]
  rw [smoothIter_const m dz sf x y _ _ ?side]
  case side =>
    intro j hj1 hj2
    exact hconst j (by omega) (by omega)
  by_cases hlook : (findLastMetadataIndex m T).toNat + 1 < m.length
  · rw [if_pos hlook]
    obtain ⟨hnx, hny⟩ := hconst ((findLastMetadataIndex m T).toNat + 1) hlook (by omega)
    rw [hnx, hny]
    by_cases htd : 0 < (getAt m ((findLastMetadataIndex m T).toNat + 1)).timestamp -
        (getAt m (findLastMetadataIndex m T).toNat).timestamp
    · rw [if_pos htd]
      simp [lerp_same]
    · rw [if_neg htd]
  · rw [if_neg hlook]

/-- Witness for the amended C8: two samples at the same position `(2, 3)`,
query time between them. -/
theorem getSmoothedMousePosition_const_fixed_point_witness :
    getSmoothedMousePosition (1 / 2) (1 / 2) 1 [⟨0, 2, 3⟩, ⟨1, 2, 3⟩] (3 / 2) =
      some (2, 3) :=
  getSmoothedMousePosition_const_fixed_point (1 / 2) (1 / 2) 1 2 3 (3 / 2)
    [⟨0, 2, 3⟩, ⟨1, 2, 3⟩] (by decide) (by norm_num) (by decide) (by norm_num)
    (by norm_num)
    (by norm_num [findLastMetadataIndex, findGo, getAt])
    (by
      intro i hi _
      have h2 : i < 2 := by simpa using hi
      interval_cases i <;> exact ⟨rfl, rfl⟩)

end ScreenArc
